import Mathlib

/-!
Verification of the pattern-matching and category-resolution core of the
near-rubric-mcp repository, as a shallow embedding in Lean.

Python strings are modelled as Lean `String` (a structure holding a
`List Char`); all character-level operations are defined on `List Char`.
The model is ASCII-faithful: `str.lower()` is modelled for the ASCII range,
which covers every string the specification and configuration use.
-/

namespace NearRubric

/-- Model of Python `str.lower()` on a single character, for the ASCII range. -/
def lowerChar (c : Char) : Char :=
  if 65 ≤ c.toNat ∧ c.toNat ≤ 90 then Char.ofNat (c.toNat + 32) else c

/-- Model of Python `str.lower()` for ASCII strings. -/
def pyLower (s : String) : String :=
  ⟨s.data.map lowerChar⟩

/-- Characters Python `str.strip()` (no argument) removes: ASCII whitespace. -/
def pyIsSpace (c : Char) : Bool :=
  c == ' ' || c == '\t' || c == '\n' || c == '\r' || c == '\x0b' || c == '\x0c'

/-- Python `str.strip()` with no argument, on char lists. -/
def pyStripWs (l : List Char) : List Char :=
  ((l.dropWhile pyIsSpace).reverse.dropWhile pyIsSpace).reverse

/-- Python `str.lstrip(chars)`: drop leading characters belonging to `chars`. -/
def pyLstrip (chars : List Char) (l : List Char) : List Char :=
  l.dropWhile (fun c => chars.contains c)

/-- Python `str.rstrip(chars)`: drop trailing characters belonging to `chars`. -/
def pyRstrip (chars : List Char) (l : List Char) : List Char :=
  (l.reverse.dropWhile (fun c => chars.contains c)).reverse

/-- Python `str.endswith` on whole strings (character-level suffix test). -/
def pyEndsWith (s suf : String) : Bool :=
  suf.data.isSuffixOf s.data

/-- Substring containment, Python `sub in s` (for char lists). -/
def containsSub (sub : List Char) : List Char → Bool
  | [] => sub.isEmpty
  | c :: t => sub.isPrefixOf (c :: t) || containsSub sub t

/-- Python `str.split(sep)` for a non-empty separator, with explicit fuel
(the fuel `l.length + 1` always suffices since every step consumes at least
one character).  Splitting with an empty separator is not modelled (the
source never does it). -/
def pySplitFuel (sep : List Char) : Nat → List Char → List Char → List (List Char)
  | _, cur, [] => [cur.reverse]
  | 0, cur, rest => [cur.reverse ++ rest]
  | f + 1, cur, c :: t =>
    if !sep.isEmpty && sep.isPrefixOf (c :: t) then
      cur.reverse :: pySplitFuel sep f [] ((c :: t).drop sep.length)
    else
      pySplitFuel sep f (c :: cur) t

/-- Python `str.split(sep)` (non-empty `sep`). -/
def pySplit (sep : List Char) (l : List Char) : List (List Char) :=
  pySplitFuel sep (l.length + 1) [] l

/-- Replace the first occurrence of `sep` in a char list (used to model the
single-placeholder `str.format` call in `resolve_complex_glob_pattern`). -/
def replaceFirst (sep repl : List Char) : List Char → List Char
  | [] => []
  | c :: t =>
    if sep.isPrefixOf (c :: t) then repl ++ (c :: t).drop sep.length
    else c :: replaceFirst sep repl t

/-- Python `str.replace(old, new)` for a non-empty `old`: split on every
occurrence and re-join with the replacement. -/
def pyReplace (old new : List Char) (l : List Char) : List Char :=
  List.intercalate new (pySplit old l)

/-- The numbered prefixes "1." .. "7." checked by `normalize_category_name`
(pattern_library.py line 152) and by the duplicated code in
`get_evaluation_framework` (orchestrator.py line 75). -/
def numberedPrefixes : List (List Char) :=
  [['1', '.'], ['2', '.'], ['3', '.'], ['4', '.'], ['5', '.'], ['6', '.'], ['7', '.']]

/-- Embedding of `normalize_category_name` (pattern_library.py lines 137-156); the same
code is duplicated inline in `get_evaluation_framework` (orchestrator.py
lines 73-76).  The non-string input guard is unrepresentable in the typed
embedding.  Note the order of operations of the source: spaces are replaced
by underscores BEFORE the numbered prefix is stripped, and `strip()` removes
only whitespace. -/
def normalize_category_name (category : String) : String :=
  let norm := (category.data.map lowerChar).map (fun c => if c == ' ' then '_' else c)
  let norm :=
    if numberedPrefixes.any (fun p => p.isPrefixOf norm) then pyStripWs (norm.drop 2)
    else norm
  ⟨norm⟩

/-!
Model of Python `fnmatch.fnmatch` (POSIX `os.path.normcase` is the
identity, so only the translate-and-match semantics remain): the pattern is
compiled to a token list (`*`, `?`, `[...]` classes, literals) and matched
against the WHOLE string, `*` matching any run of characters including the
separator.  An unmatched `[` is a literal, as in `fnmatch.translate`.
-/

/-- One compiled token of an `fnmatch` pattern. -/
inductive GTok where
  | star
  | anyc
  | gcls (neg : Bool) (body : List Char)
  | glit (c : Char)
  deriving DecidableEq

/-- Scan for the closing `]` of a character class; returns the body and the
remaining characters. -/
def scanToClose : List Char → Option (List Char × List Char)
  | [] => none
  | ']' :: rest => some ([], rest)
  | c :: rest => (scanToClose rest).map (fun p => (c :: p.1, p.2))

/-- Split a character class following `[`, with the `fnmatch.translate`
rules: a leading `!` negates, and a `]` right after `[` or `[!` belongs to
the body.  `none` means the class is unterminated (the `[` is a literal). -/
def splitClass (l : List Char) : Option (Bool × List Char × List Char) :=
  match l with
  | '!' :: ']' :: rest => (scanToClose rest).map (fun p => (true, ']' :: p.1, p.2))
  | '!' :: rest => (scanToClose rest).map (fun p => (true, p.1, p.2))
  | ']' :: rest => (scanToClose rest).map (fun p => (false, ']' :: p.1, p.2))
  | rest => (scanToClose rest).map (fun p => (false, p.1, p.2))

/-- Compile an `fnmatch` pattern to tokens.  Fuel `l.length + 1` suffices:
every step consumes at least one character. -/
def globCompile : Nat → List Char → List GTok
  | 0, _ => []
  | _ + 1, [] => []
  | f + 1, '*' :: ps => .star :: globCompile f ps
  | f + 1, '?' :: ps => .anyc :: globCompile f ps
  | f + 1, '[' :: ps =>
    match splitClass ps with
    | none => .glit '[' :: globCompile f ps
    | some (neg, body, rest) => .gcls neg body :: globCompile f rest
  | f + 1, c :: ps => .glit c :: globCompile f ps

/-- Membership of a character in a class body, with `a-b` ranges (a reversed
range matches nothing, a trailing or leading `-` is a literal). -/
def gclassMatch : List Char → Char → Bool
  | a :: '-' :: b :: rest, c =>
    (decide (a.toNat ≤ c.toNat) && decide (c.toNat ≤ b.toNat)) || gclassMatch rest c
  | a :: rest, c => (a == c) || gclassMatch rest c
  | [], _ => false

/-- Full-string glob matching over compiled tokens, with fuel (each
recursive call shrinks `tokens.length + s.length`, so
`tokens.length + s.length + 1` fuel suffices). -/
def fnmatchFuel : Nat → List GTok → List Char → Bool
  | 0, _, _ => false
  | _ + 1, [], s => s.isEmpty
  | f + 1, .star :: ps, [] => fnmatchFuel f ps []
  | f + 1, .star :: ps, c :: cs =>
    fnmatchFuel f ps (c :: cs) || fnmatchFuel f (.star :: ps) cs
  | _ + 1, .anyc :: _, [] => false
  | f + 1, .anyc :: ps, _ :: cs => fnmatchFuel f ps cs
  | _ + 1, .gcls _ _ :: _, [] => false
  | f + 1, .gcls neg body :: ps, c :: cs =>
    (gclassMatch body c != neg) && fnmatchFuel f ps cs
  | _ + 1, .glit _ :: _, [] => false
  | f + 1, .glit a :: ps, c :: cs => (a == c) && fnmatchFuel f ps cs

/-- Model of `fnmatch.fnmatch(name, pat)` under POSIX `normcase`. -/
def fnmatch (name pat : String) : Bool :=
  let toks := globCompile (pat.data.length + 1) pat.data
  fnmatchFuel (toks.length + name.data.length + 1) toks name.data

/-- Embedding of `match_file_with_glob` (file_matcher.py lines 54-84).  The
`try/except` wrapper only turns exceptions into `False`; none of the
operations below raise. -/
def match_file_with_glob (file_path glob_pattern : String) : Bool :=
  if containsSub ['*', '*'] glob_pattern.data then
    match pySplit ['*', '*'] glob_pattern.data with
    | [pre, suf] =>
      -- Simple case like "**/*.py" in the source
      if !pre.isEmpty && !(pyRstrip ['/', '\\'] pre).isPrefixOf file_path.data then false
      else if !suf.isEmpty && !(pyLstrip ['/', '\\'] suf).isSuffixOf file_path.data then false
      else fnmatch file_path glob_pattern
    | _ =>
      -- Complex case with more than one "**" part
      fnmatch file_path glob_pattern
  else fnmatch file_path glob_pattern

/-- Whether a file matches at least one pattern — the inner loop of
`filter_files_by_patterns` with its `break` on the first match. -/
def matchesAnyPattern (file_path : String) : List String → Bool
  | [] => false
  | p :: ps => if match_file_with_glob file_path p then true else matchesAnyPattern file_path ps

/-- Embedding of `filter_files_by_patterns` (file_matcher.py lines 87-129).  The
`isinstance` guards on the inputs and on each entry are unrepresentable in
the typed embedding; the per-file `try/except` never fires because
`match_file_with_glob` is total. -/
def filter_files_by_patterns : List String → List String → List String
  | [], _ => []
  | f :: fs, patterns =>
    if matchesAnyPattern f patterns then f :: filter_files_by_patterns fs patterns
    else filter_files_by_patterns fs patterns

/-- Index of the first occurrence of a character, Python `str.find` under a
containment guard (the source only calls it after checking membership). -/
def pyFindChar (l : List Char) (c : Char) : Nat :=
  l.findIdx (fun a => a == c)

/-- Python slice `l[i:j]`. -/
def pySlice (l : List Char) (i j : Nat) : List Char :=
  (l.drop i).take (j - i)

/-- Python `str.strip(chars)`: both-sided strip of the given characters. -/
def pyStripChars (chars : List Char) (l : List Char) : List Char :=
  pyRstrip chars (pyLstrip chars l)

/-- Embedding of `resolve_complex_glob_pattern` (file_matcher.py lines 206-251).  The
format-placeholder call is the first-occurrence substitution of the brace pair;
`str.replace` is modelled for a non-empty needle (the brace expression is
non-empty whenever this branch is taken with a well-formed pattern). -/
def resolve_complex_glob_pattern (pattern : String) (available_files : List String) : List String :=
  if pattern.data.contains '\x7b' && pattern.data.contains '\x7d' then
    let extension_part :=
      pySlice pattern.data (pyFindChar pattern.data '\x7b') (pyFindChar pattern.data '\x7d' + 1)
    let extensions := pySplit [','] (pyStripChars ['\x7b', '\x7d'] extension_part)
    let base_pattern := pyReplace extension_part ['\x7b', '\x7d'] pattern.data
    (extensions.map (fun ext =>
      available_files.filter (fun f =>
        match_file_with_glob f ⟨replaceFirst ['\x7b', '\x7d'] ext base_pattern⟩))).flatten
  else
    available_files.filter (fun f => match_file_with_glob f pattern)

/-!
Model of the Python `re` fragment the repository detection patterns use:
literals, `.`, punctuation escapes, the shorthand classes `\d \D \w \W \s \S`,
character classes with ranges and `^` negation, groups, alternation and the
quantifiers `*`, `+`, `?`.  `re.compile` is a recursive-descent pass
returning `none` exactly where `re.error` is raised on this fragment
(unbalanced parenthesis, unterminated class, dangling quantifier or escape);
constructs outside the fragment (anchors, `{m,n}` counts, backreferences,
escapes of other letters) are also mapped to `none`.  Matching is
unanchored substring search, as `Pattern.search`.
-/

/-- Abstract syntax of the modelled regex fragment (`plus` and `?` are
desugared during parsing). -/
inductive Re where
  | eps
  | lit (c : Char)
  | anyc
  | cls (neg : Bool) (items : List (Char × Char))
  | cat (a b : Re)
  | alt (a b : Re)
  | star (a : Re)
  deriving DecidableEq

/-- Class items for the `\d` shorthand. -/
def digitItems : List (Char × Char) := [('0', '9')]

/-- Class items for the `\w` shorthand (ASCII). -/
def wordItems : List (Char × Char) :=
  [('a', 'z'), ('A', 'Z'), ('0', '9'), ('_', '_')]

/-- Class items for the `\s` shorthand (ASCII). -/
def spaceItems : List (Char × Char) :=
  [(' ', ' '), ('\t', '\t'), ('\n', '\n'), ('\r', '\r'), ('\x0b', '\x0b'), ('\x0c', '\x0c')]

/-- Parse the body of a `[...]` class (after any leading `^` and literal
`]` were taken); `none` on an unterminated class. -/
def reParseClsBody : Nat → List Char → Option (List (Char × Char) × List Char)
  | 0, _ => none
  | _ + 1, [] => none
  | _ + 1, ']' :: rest => some ([], rest)
  | f + 1, '\\' :: c :: rest =>
    (reParseClsBody f rest).map (fun p => ((c, c) :: p.1, p.2))
  | _ + 1, ['\\'] => none
  | f + 1, a :: '-' :: ']' :: rest =>
    (reParseClsBody f (']' :: rest)).map (fun p => ((a, a) :: ('-', '-') :: p.1, p.2))
  | f + 1, a :: '-' :: b :: rest =>
    (reParseClsBody f rest).map (fun p => ((a, b) :: p.1, p.2))
  | f + 1, a :: rest =>
    (reParseClsBody f rest).map (fun p => ((a, a) :: p.1, p.2))

/-- Letters whose escapes this model supports as shorthand classes. -/
def escClass (c : Char) : Option (Bool × List (Char × Char)) :=
  if c == 'd' then some (false, digitItems)
  else if c == 'D' then some (true, digitItems)
  else if c == 'w' then some (false, wordItems)
  else if c == 'W' then some (true, wordItems)
  else if c == 's' then some (false, spaceItems)
  else if c == 'S' then some (true, spaceItems)
  else none

/-- Is a character an ASCII letter or digit?  Python `re` raises on an
escaped letter or digit it does not know. -/
def isAsciiAlnum (c : Char) : Bool :=
  (decide ('a'.toNat ≤ c.toNat) && decide (c.toNat ≤ 'z'.toNat)) ||
  (decide ('A'.toNat ≤ c.toNat) && decide (c.toNat ≤ 'Z'.toNat)) ||
  (decide ('0'.toNat ≤ c.toNat) && decide (c.toNat ≤ '9'.toNat))

mutual

/-- Alternation level: `seq ('|' alt)?`. -/
def reParseAlt : Nat → List Char → Option (Re × List Char)
  | 0, _ => none
  | f + 1, s =>
    match reParseSeq f s with
    | none => none
    | some (r, rest) =>
      match rest with
      | '|' :: rest2 =>
        match reParseAlt f rest2 with
        | none => none
        | some (r2, rest3) => some (.alt r r2, rest3)
      | _ => some (r, rest)

/-- Concatenation level: a run of quantified atoms, stopping at `|`, `)` or
the end. -/
def reParseSeq : Nat → List Char → Option (Re × List Char)
  | 0, _ => none
  | _ + 1, [] => some (.eps, [])
  | _ + 1, ')' :: rest => some (.eps, ')' :: rest)
  | _ + 1, '|' :: rest => some (.eps, '|' :: rest)
  | f + 1, s =>
    match reParseRep f s with
    | none => none
    | some (r, rest) =>
      match reParseSeq f rest with
      | none => none
      | some (r2, rest2) => some (.cat r r2, rest2)

/-- An atom with an optional quantifier. -/
def reParseRep : Nat → List Char → Option (Re × List Char)
  | 0, _ => none
  | f + 1, s =>
    match reParseAtom f s with
    | none => none
    | some (r, rest) =>
      match rest with
      | '*' :: rest2 => some (.star r, rest2)
      | '+' :: rest2 => some (.cat r (.star r), rest2)
      | '?' :: rest2 => some (.alt r .eps, rest2)
      | _ => some (r, rest)

/-- A single atom; `none` on the constructs `re.compile` rejects and on the
constructs outside the modelled fragment. -/
def reParseAtom : Nat → List Char → Option (Re × List Char)
  | 0, _ => none
  | _ + 1, [] => none
  | f + 1, '(' :: rest =>
    match reParseAlt f rest with
    | none => none
    | some (r, rest2) =>
      match rest2 with
      | ')' :: rest3 => some (r, rest3)
      | _ => none
  | _ + 1, ')' :: _ => none
  | _ + 1, '|' :: _ => none
  | _ + 1, '*' :: _ => none
  | _ + 1, '+' :: _ => none
  | _ + 1, '?' :: _ => none
  | _ + 1, '^' :: _ => none
  | _ + 1, '$' :: _ => none
  | _ + 1, '.' :: rest => some (.anyc, rest)
  | f + 1, '[' :: rest =>
    let (neg, rest1) := match rest with
      | '^' :: t => (true, t)
      | _ => (false, rest)
    let (litBr, rest2) := match rest1 with
      | ']' :: t => ([((']' : Char), (']' : Char))], t)
      | _ => ([], rest1)
    (match reParseClsBody f rest2 with
     | none => none
     | some (items, rest3) => some (.cls neg (litBr ++ items), rest3))
  | _ + 1, '\\' :: c :: rest =>
    (match escClass c with
     | some (neg, items) => some (.cls neg items, rest)
     | none => if isAsciiAlnum c then none else some (.lit c, rest))
  | _ + 1, ['\\'] => none
  | _ + 1, c :: rest => some (.lit c, rest)

end

/-- Model of `re.compile` on the modelled fragment: `some` is a compiled pattern,
`none` is `re.error`. -/
def reCompile (p : String) : Option Re :=
  match reParseAlt (4 * p.data.length + 8) p.data with
  | some (r, []) => some r
  | _ => none

/-- Size of a regex tree, used only to pick a sufficient fuel. -/
def reSize : Re → Nat
  | .eps => 1
  | .lit _ => 1
  | .anyc => 1
  | .cls _ _ => 1
  | .cat a b => reSize a + reSize b + 1
  | .alt a b => reSize a + reSize b + 1
  | .star a => reSize a + 1

/-- All possible remainders of the string after the regex consumed a
prefix.  A star only re-enters on a strictly shorter remainder, so the fuel
`(reSize r + 1) * (s.length + 2)` suffices. -/
def reResiduals : Nat → Re → List Char → List (List Char)
  | 0, _, _ => []
  | _ + 1, .eps, s => [s]
  | _ + 1, .lit _, [] => []
  | _ + 1, .lit a, c :: t => if a == c then [t] else []
  | _ + 1, .anyc, [] => []
  | _ + 1, .anyc, _ :: t => [t]
  | _ + 1, .cls _ _, [] => []
  | _ + 1, .cls neg items, c :: t =>
    if (items.any (fun p => decide (p.1.toNat ≤ c.toNat) && decide (c.toNat ≤ p.2.toNat))) != neg
    then [t] else []
  | f + 1, .cat a b, s => ((reResiduals f a s).map (fun t => reResiduals f b t)).flatten
  | f + 1, .alt a b, s => reResiduals f a s ++ reResiduals f b s
  | f + 1, .star a, s =>
    s :: (((reResiduals f a s).filter (fun t => decide (t.length < s.length))).map
        (fun t => reResiduals f (.star a) t)).flatten

/-- Unanchored search from every start position, `Pattern.search`. -/
def reSearchFrom (fuel : Nat) (r : Re) : List Char → Bool
  | [] => !(reResiduals fuel r []).isEmpty
  | c :: t => !(reResiduals fuel r (c :: t)).isEmpty || reSearchFrom fuel r t

/-- Model of `bool(pattern.search(line))`. -/
def reSearch (r : Re) (line : List Char) : Bool :=
  reSearchFrom ((reSize r + 1) * (line.length + 2)) r line

/-- One entry of the match report of `find_pattern_matches_in_file`; the
`matched` field carries the JSON key "match" (a Lean keyword). -/
structure MatchResult where
  pattern : String
  line_number : Nat
  line_content : String
  matched : Bool
  deriving DecidableEq

/-- The inner line loop of `find_pattern_matches_in_file`: one
`MatchResult` per line the compiled pattern finds, 1-based numbering. -/
def scanLines (p : String) (r : Re) : Nat → List String → List MatchResult
  | _, [] => []
  | i, line :: rest =>
    (if reSearch r line.data then
      [{ pattern := p, line_number := i + 1, line_content := ⟨pyStripWs line.data⟩, matched := true }]
     else []) ++ scanLines p r (i + 1) rest

/-- Embedding of `find_pattern_matches_in_file` (file_matcher.py lines 154-203): the
content is split on newlines, every pattern is compiled — an invalid
pattern is logged and skipped (`except re.error: continue`) — and every
matching line is reported.  The `isinstance` guards are unrepresentable in
the typed embedding. -/
def find_pattern_matches_in_file (file_content : String) (patterns : List String) : List MatchResult :=
  let lines : List String := (pySplit ['\n'] file_content.data).map (fun l => ⟨l⟩)
  (patterns.map (fun p =>
    match reCompile p with
    | none => []
    | some r => scanLines p r 0 lines)).flatten

/-- Embedding of `find_pattern_matches_in_files` (pattern_library.py lines 259-294):
per-file matching, keeping only files with a non-empty match list.  The
Python dict of contents is modelled as an association list in insertion
order; the per-file `try/except` never fires because the matcher is
total. -/
def find_pattern_matches_in_files (files_content : List (String × String)) (patterns : List String) :
    List (String × List MatchResult) :=
  files_content.filterMap (fun kv =>
    let file_matches := find_pattern_matches_in_file kv.2 patterns
    if file_matches.isEmpty then none else some (kv.1, file_matches))

/-!
Pattern library (pattern_library.py).  A category pattern set — a Python
dict from language tag to pattern list — is an association list in
insertion order, as is the whole patterns configuration.  Configuration
loading (`load_patterns_config`) is an external collaborator per the
specification; the already-parsed mapping is a parameter.
-/

/-- Membership test `tag in category_patterns` (dict membership). -/
def tagMem (cp : List (String × List String)) (tag : String) : Bool :=
  (cp.find? (fun kv => kv.1 == tag)).isSome

/-- Lookup `category_patterns[tag]` (defaulting to the empty list, reached only
under a membership guard in the source). -/
def tagGet (cp : List (String × List String)) (tag : String) : List String :=
  match cp.find? (fun kv => kv.1 == tag) with
  | some kv => kv.2
  | none => []

/-- The common-tag part always added first (pattern_library.py lines 219-222). -/
def commonPatterns (cp : List (String × List String)) : List String :=
  if tagMem cp "common" then tagGet cp "common" else []

/-- The no-project-type branch: every non-"common" tag in insertion order
(pattern_library.py lines 242-246). -/
def allLangPatterns (cp : List (String × List String)) : List String :=
  ((cp.filter (fun kv => kv.1 != "common")).map (fun kv => kv.2)).flatten

/-- Project types treated as the JavaScript family. -/
def jsFamily : List String := ["javascript", "js", "typescript", "ts"]

/-- The language-specific branch of the selection (pattern_library.py lines
225-240): an `if`/`elif` chain on `project_type.lower()`; "mixed" adds only
the "rust" and "javascript" tags. -/
def langPatterns (cp : List (String × List String)) (pt : String) : List String :=
  let low := pyLower pt
  if low == "rust" && tagMem cp "rust" then tagGet cp "rust"
  else if jsFamily.contains low && tagMem cp "javascript" then tagGet cp "javascript"
  else if low == "mixed" then
    (if tagMem cp "rust" then tagGet cp "rust" else []) ++
    (if tagMem cp "javascript" then tagGet cp "javascript" else [])
  else []

/-- Order-preserving first-occurrence deduplication, the model of
`list(set(selected_patterns))` (pattern_library.py line 249).  Python set
iteration order is unspecified; theorems about the selection are stated
membership-wise, for which any deterministic deduplication is equivalent. -/
def pyDedupAux (seen : List String) : List String → List String
  | [] => []
  | x :: xs => if x ∈ seen then pyDedupAux seen xs else x :: pyDedupAux (x :: seen) xs

/-- Deduplicate keeping first occurrences. -/
def pyDedup (l : List String) : List String :=
  pyDedupAux [] l

/-- The pattern-selection block of `get_patterns_for_category`
(pattern_library.py lines 215-249).  `if project_type:` is Python
truthiness: `None` and the empty string both take the include-everything
branch. -/
def select_patterns (cp : List (String × List String)) (project_type : Option String) : List String :=
  let base := commonPatterns cp
  let lang :=
    match project_type with
    | some pt => if pt == "" then allLangPatterns cp else langPatterns cp pt
    | none => allLangPatterns cp
  pyDedup (base ++ lang)

/-- Category resolution of `get_patterns_for_category` (pattern_library.py
lines 192-202): exact `dict.get` first, then — only when the result is
falsy (missing or empty) — the first registry key that ENDS WITH the
normalized input. -/
def resolve_category_patterns (all_patterns : List (String × List (String × List String)))
    (norm : String) : List (String × List String) :=
  let cp := match all_patterns.find? (fun kv => kv.1 == norm) with
    | some kv => kv.2
    | none => []
  if cp.isEmpty then
    match all_patterns.find? (fun kv => pyEndsWith kv.1 norm) with
    | some kv => kv.2
    | none => []
  else cp

/-- The response dict of `get_patterns_for_category`; `available_categories`
is only present on the soft-fail path. -/
structure PatternsResponse where
  category : String
  detection_patterns : List String
  explanation : String
  available_categories : Option (List String)
  deriving DecidableEq

/-- Embedding of `get_patterns_for_category` (pattern_library.py lines 158-257) with the
already-parsed patterns configuration as a parameter.  The non-string
category guard (`ErrorResponse.invalid_input`) is unrepresentable in the
typed embedding. -/
def get_patterns_for_category (all_patterns : List (String × List (String × List String)))
    (category : String) (project_type : Option String) : PatternsResponse :=
  let norm := normalize_category_name category
  if norm == "" then
    { category := category, detection_patterns := [],
      explanation := "Invalid category format.", available_categories := none }
  else
    let cp := resolve_category_patterns all_patterns norm
    if cp.isEmpty then
      { category := category, detection_patterns := [],
        explanation := "No specific patterns available for this category.",
        available_categories := some (all_patterns.map (fun kv => kv.1)) }
    else
      let selected := select_patterns cp project_type
      { category := category, detection_patterns := selected,
        explanation := "Found " ++ toString selected.length ++ " relevant patterns for "
          ++ category ++ " evaluation.",
        available_categories := none }

/-!
Prompt generation (prompt_generator.py lines 161-191).  The template store
(`_load_prompt_template`) is an external collaborator per the
specification and is passed as a function from category key to template
text; the embedding covers the decoration the core performs.
-/

/-- Guidance appended for Rust projects (prompt_generator.py lines 181-184). -/
def rustGuidance : String :=
  "\n\nAdditional guidance for Rust projects:\n"
  ++ "- Check for #[near_bindgen] attribute on contract structs\n"
  ++ "- Look for near-sdk-rs imports and usage\n"
  ++ "- Examine initialization and state management patterns\n"

/-- Guidance appended for JavaScript-family projects (prompt_generator.py
lines 185-189). -/
def jsGuidance : String :=
  "\n\nAdditional guidance for JavaScript/TypeScript projects:\n"
  ++ "- Check for near-api-js or near-sdk-js imports\n"
  ++ "- Look for wallet connection implementations\n"
  ++ "- Examine contract call patterns and transaction signing\n"

/-- Embedding of `generate_prompt` (prompt_generator.py lines 161-191): load the
template for the category and append project-type guidance when the
(truthy) project type lowers to "rust" or to the JavaScript family. -/
def generate_prompt (tmplStore : String → String) (category : String)
    (project_type : Option String) : String :=
  let template := tmplStore category
  match project_type with
  | none => template
  | some pt =>
    if pt == "" then template
    else if pyLower pt == "rust" then template ++ rustGuidance
    else if jsFamily.contains (pyLower pt) then template ++ jsGuidance
    else template

/-!
Error responses (errors.py) and the orchestrator (orchestrator.py).
Registry values (`rubric.yaml` category configurations) are modelled by the
fields the orchestrator reads; the rubric configuration itself is an
external collaborator and is passed already parsed.
-/

/-- The `details` dict of a category-not-found error (errors.py line 93). -/
structure ErrDetails where
  requested_category : String
  available_categories : Option (List String)
  deriving DecidableEq

/-- A structured error response (errors.py lines 40-71); `suggestion` and
`details` are `none` when the corresponding key is absent. -/
structure ErrObj where
  error : String
  error_code : String
  status : String
  suggestion : Option String
  details : Option ErrDetails
  deriving DecidableEq

/-- Embedding of `ErrorResponse.create` (errors.py lines 40-71): `status` is always
"failed"; a falsy (empty) suggestion is dropped; the details dict built by
`category_not_found` is never empty, so a provided `details` is kept. -/
def errorResponse_create (message : String) (ec : String) (suggestion : Option String)
    (details : Option ErrDetails) : ErrObj :=
  { error := message, error_code := ec, status := "failed",
    suggestion := match suggestion with
      | some s => if s == "" then none else some s
      | none => none,
    details := details }

/-- Python `", ".join`. -/
def joinCommaSpace : List String → String
  | [] => ""
  | [x] => x
  | x :: xs => x ++ ", " ++ joinCommaSpace xs

/-- Embedding of `ErrorResponse.category_not_found` (errors.py lines 73-94). -/
def errorResponse_category_not_found (category : String)
    (available_categories : Option (List String)) : ErrObj :=
  let sugg := "Please check the spelling or use one of the supported categories."
    ++ (match available_categories with
        | some l => if l.isEmpty then "" else " Available categories: " ++ joinCommaSpace l
        | none => "")
  errorResponse_create ("Category \x27" ++ category ++ "\x27 is not supported.")
    "CATEGORY_NOT_FOUND" (some sugg)
    (some { requested_category := category, available_categories := available_categories })

/-- One scoring tier: `range: [lo, hi]` plus criteria text (negative bounds
do not occur in the rubric configurations). -/
structure ScoringTier where
  lo : Nat
  hi : Nat
  criteria : String
  deriving DecidableEq

/-- A rubric category configuration, restricted to the keys
`get_evaluation_framework` reads (`max_points`, `scoring_tiers`,
`file_patterns`); `none` models an absent key, read through `.get` with a
default. -/
structure CatCfg where
  max_points : Option Nat
  scoring_tiers : Option (List (String × ScoringTier))
  file_patterns : Option (List String)
  deriving DecidableEq

/-- The category-resolution loop of `get_evaluation_framework`
(orchestrator.py lines 83-87): one pass over the registry in insertion
order, taking the FIRST key that equals the normalized input or ends with
it. -/
def find_category (rubric_categories : List (String × CatCfg)) (norm : String) :
    Option (String × CatCfg) :=
  rubric_categories.find? (fun kv => kv.1 == norm || pyEndsWith kv.1 norm)

/-- The successful evaluation-framework payload (orchestrator.py lines
102-112); `scoring_guide` keeps the tier entries in order (the source
builds a dict keyed by the "lo-hi" strings). -/
structure Framework where
  category : String
  max_points : Nat
  evaluation_prompt : String
  scoring_guide : List (String × String)
  suggested_files : List String
  quick_check_patterns : List String
  deriving DecidableEq

/-- Result of `get_evaluation_framework`: a framework or a structured error
object (never an exception). -/
inductive FrameworkResult where
  | ok (fw : Framework)
  | err (e : ErrObj)
  deriving DecidableEq

/-- Embedding of `get_evaluation_framework` (orchestrator.py lines 60-114).  The rubric
categories, the patterns configuration and the template store are the
already-parsed external inputs.  The inline normalization (lines 73-76) is
the same code as `normalize_category_name`.  (A present-but-empty
category-configuration dict would also take the error path via
`if not category_config:`; an empty dict is not representable in the typed
configuration model.) -/
def get_evaluation_framework (rubric_categories : List (String × CatCfg))
    (all_patterns : List (String × List (String × List String)))
    (tmplStore : String → String) (category : String) (project_type : Option String) :
    FrameworkResult :=
  let norm := normalize_category_name category
  let available_categories := rubric_categories.map (fun kv => kv.1)
  match find_category rubric_categories norm with
  | none => .err (errorResponse_category_not_found category (some available_categories))
  | some (category_key, category_config) =>
    let pats := get_patterns_for_category all_patterns category_key project_type
    let evaluation_prompt := generate_prompt tmplStore category_key project_type
    .ok {
      category := category,
      max_points := category_config.max_points.getD 20,
      evaluation_prompt := evaluation_prompt,
      scoring_guide := (category_config.scoring_tiers.getD []).map
        (fun kv => (toString kv.2.lo ++ "-" ++ toString kv.2.hi, kv.2.criteria)),
      suggested_files := category_config.file_patterns.getD [],
      quick_check_patterns := pats.detection_patterns }

/-!  Helper lemmas. -/

/-- A valid code point below the surrogate range round-trips through
`Char.ofNat`. -/
theorem toNat_ofNat_of_lt (n : Nat) (h : n < 55296) : (Char.ofNat n).toNat = n := by
  have hv : n.isValidChar := Or.inl h
  rw [Char.ofNat, dif_pos hv]
  rfl

/-- ASCII lower-casing is idempotent. -/
theorem lowerChar_idem (c : Char) : lowerChar (lowerChar c) = lowerChar c := by
  unfold lowerChar
  by_cases h : 65 ≤ c.toNat ∧ c.toNat ≤ 90
  · rw [if_pos h]
    have hn : (Char.ofNat (c.toNat + 32)).toNat = c.toNat + 32 :=
      toNat_ofNat_of_lt _ (by omega)
    rw [if_neg (by rw [hn]; omega)]
  · rw [if_neg h, if_neg h]

/-- Lower-casing `pyLower` is idempotent. -/
theorem pyLower_idem (s : String) : pyLower (pyLower s) = pyLower s := by
  unfold pyLower
  apply congrArg String.mk
  show List.map lowerChar (List.map lowerChar s.data) = List.map lowerChar s.data
  rw [List.map_map]
  have : lowerChar ∘ lowerChar = lowerChar := funext lowerChar_idem
  rw [this]

/-- Lower-casing preserves emptiness. -/
theorem pyLower_empty_iff (s : String) : pyLower s = "" ↔ s = "" := by
  rw [String.ext_iff, String.ext_iff]
  show s.data.map lowerChar = [] ↔ s.data = []
  exact List.map_eq_nil_iff

/-- Membership in the deduplication loop. -/
theorem mem_pyDedupAux (x : String) :
    ∀ (l seen : List String), x ∈ pyDedupAux seen l ↔ (x ∈ l ∧ x ∉ seen) := by
  intro l
  induction l with
  | nil => intro seen; simp [pyDedupAux]
  | cons a t ih =>
    intro seen
    by_cases ha : a ∈ seen
    · rw [pyDedupAux, if_pos ha, ih]
      constructor
      · rintro ⟨hx, hs⟩; exact ⟨List.mem_cons_of_mem _ hx, hs⟩
      · rintro ⟨hx, hs⟩
        rcases List.mem_cons.mp hx with rfl | hx
        · exact absurd ha hs
        · exact ⟨hx, hs⟩
    · rw [pyDedupAux, if_neg ha]
      constructor
      · intro hx
        rcases List.mem_cons.mp hx with rfl | hx
        · exact ⟨List.mem_cons_self _ _, ha⟩
        · rcases (ih (a :: seen)).mp hx with ⟨ht, hs⟩
          refine ⟨List.mem_cons_of_mem _ ht, fun hmem => hs (List.mem_cons_of_mem _ hmem)⟩
      · rintro ⟨hx, hs⟩
        rcases List.mem_cons.mp hx with rfl | hx
        · exact List.mem_cons_self _ _
        · by_cases hxa : x = a
          · subst hxa; exact List.mem_cons_self _ _
          · exact List.mem_cons_of_mem _ ((ih (a :: seen)).mpr
              ⟨hx, fun hmem => (List.mem_cons.mp hmem).elim hxa hs⟩)

/-- Membership survives `pyDedup` exactly. -/
theorem mem_pyDedup (x : String) (l : List String) : x ∈ pyDedup l ↔ x ∈ l := by
  rw [pyDedup, mem_pyDedupAux]
  simp

/-- Every match emitted by the line scan carries the pattern that produced
it. -/
theorem scanLines_pattern_eq (p : String) (r : Re) (m : MatchResult) :
    ∀ (i : Nat) (lines : List String), m ∈ scanLines p r i lines → m.pattern = p := by
  intro i lines
  induction lines generalizing i with
  | nil => intro h; simp [scanLines] at h
  | cons l t ih =>
    intro h
    rw [scanLines] at h
    rcases List.mem_append.mp h with h1 | h2
    · by_cases hs : reSearch r l.data
      · rw [if_pos hs] at h1
        rcases List.mem_singleton.mp h1 with rfl
        rfl
      · rw [if_neg hs] at h1
        simp at h1
    · exact ih _ h2

/-!  Claim theorems. -/

/-- C1: the specification claims the glob matcher accepts
"contracts/src/lib.rs" and "lib.rs" for the pattern "**/*.rs" and rejects
"lib.ts".  The code rejects ALL three: the suffix pre-filter of
`match_file_with_glob` literally compares `endswith("*.rs")`, with the
wildcard kept, so the pattern rejects every ordinary path — contradicting
the function and branch comments about recursive-directory matching.  The
underlying `fnmatch` WOULD accept the nested path (fourth conjunct). -/
theorem C1_glob_star_examples_fail_in_code :
    match_file_with_glob "contracts/src/lib.rs" "**/*.rs" = false ∧
    match_file_with_glob "lib.rs" "**/*.rs" = false ∧
    match_file_with_glob "lib.ts" "**/*.rs" = false ∧
    fnmatch "contracts/src/lib.rs" "**/*.rs" = true := by
  refine ⟨by decide, by decide, by decide, by decide⟩

/-- C2: the specification claims brace-pattern resolution returns every
file matching one of the expanded alternatives, in particular both "a.js"
and "a/b.ts" for the pattern with the braces js,ts.  The expansion itself
produces the right alternatives, but each goes through the broken
`match_file_with_glob` suffix pre-filter, so the code returns the empty
list (first conjunct); a brace pattern with a literal suffix shows the
expansion logic working (second conjunct). -/
theorem C2_brace_expansion_examples_fail_in_code :
    resolve_complex_glob_pattern "**/*.\x7bjs,ts\x7d" ["a.js", "a/b.ts"] = [] ∧
    resolve_complex_glob_pattern "**/\x7bCargo.toml,package.json\x7d"
      ["a/Cargo.toml", "b/package.json", "c.txt"] = ["a/Cargo.toml", "b/package.json"] := by
  refine ⟨by decide, by decide⟩

/-- C3: the specification claims
normalize("1. NEAR Protocol Integration") = "near_protocol_integration"
with no leading separator, and prefix stripping for any ASCII digit.  The
code replaces spaces by underscores BEFORE dropping the two-character
numbering prefix and `strip()` removes only whitespace, so the result
keeps a leading underscore; and only the prefixes "1." through "7." are
stripped, so "8."-numbered names keep their prefix. -/
theorem C3_normalizer_examples_fail_in_code :
    normalize_category_name "1. NEAR Protocol Integration" = "_near_protocol_integration" ∧
    normalize_category_name "NEAR Integration" = "near_integration" ∧
    normalize_category_name "" = "" ∧
    normalize_category_name "8. Foo" = "8._foo" := by
  refine ⟨by decide, by decide, by decide, by decide⟩

/-- C4 counterexample: the orchestrator resolves categories in ONE pass
accepting the first registry key that equals the input OR ends with it, so
a suffix-matching key earlier in insertion order wins over an exact match
later in the registry — refuting unconditional exact-match precedence. -/
theorem C4_counterexample_suffix_beats_exact :
    find_category [("extra_near_integration", ⟨some 10, none, none⟩),
        ("near_integration", ⟨some 20, none, none⟩)] "near_integration" =
      some ("extra_near_integration", ⟨some 10, none, none⟩) ∧
    ((⟨some 10, none, none⟩ : CatCfg) ≠ ⟨some 20, none, none⟩) := by
  refine ⟨by decide, by decide⟩

/-- C4 (amended): exact-match precedence does hold in the pattern library
lookup, which consults the exact key first and falls back to suffix
matching only when that lookup is falsy: a non-empty exact entry is always
returned, whatever other keys the registry holds. -/
theorem C4_pattern_library_exact_precedence
    (ap : List (String × List (String × List String))) (norm : String)
    (ps : List (String × List String))
    (hfind : ap.find? (fun kv => kv.1 == norm) = some (norm, ps))
    (hne : ps ≠ []) :
    resolve_category_patterns ap norm = ps := by
  unfold resolve_category_patterns
  rw [hfind]
  simp only []
  rw [if_neg]
  simp [List.isEmpty_iff, hne]

/-- C4 witness: with a suffix-matching key FIRST in the registry, the
pattern library still returns the exact entry. -/
theorem C4_witness :
    ([("extra_near", [("common", ["x"])]), ("near", [("common", ["y"])])].find?
        (fun kv => kv.1 == "near") = some ("near", [("common", ["y"])])) ∧
    resolve_category_patterns
        [("extra_near", [("common", ["x"])]), ("near", [("common", ["y"])])] "near" =
      [("common", ["y"])] :=
  ⟨by decide, C4_pattern_library_exact_precedence _ _ _ (by decide) (by decide)⟩

/-- C8: `filter_files_by_patterns` is deterministic (it is a pure function
of its inputs) and every returned path is an element of the input file
list. -/
theorem C8_filter_deterministic_and_subset (F P : List String) :
    filter_files_by_patterns F P = filter_files_by_patterns F P ∧
    ∀ x, x ∈ filter_files_by_patterns F P → x ∈ F := by
  refine ⟨rfl, ?_⟩
  induction F with
  | nil => intro x hx; rw [filter_files_by_patterns] at hx; exact absurd hx (List.not_mem_nil x)
  | cons f fs ih =>
    intro x hx
    rw [filter_files_by_patterns] at hx
    by_cases h : matchesAnyPattern f P
    · rw [if_pos h] at hx
      rcases List.mem_cons.mp hx with rfl | hx
      · exact List.mem_cons_self _ _
      · exact List.mem_cons_of_mem _ (ih x hx)
    · rw [if_neg h] at hx
      exact List.mem_cons_of_mem _ (ih x hx)

/-- C8 witness at a concrete file list and pattern list. -/
theorem C8_witness :
    "a/Cargo.toml" ∈ filter_files_by_patterns ["a/Cargo.toml", "b.txt"] ["**/Cargo.toml"] ∧
    "a/Cargo.toml" ∈ ["a/Cargo.toml", "b.txt"] :=
  ⟨by decide,
   (C8_filter_deterministic_and_subset ["a/Cargo.toml", "b.txt"] ["**/Cargo.toml"]).2
     "a/Cargo.toml" (by decide)⟩

/-- The language branch evaluated at "rust". -/
theorem langPatterns_rust (cp : List (String × List String)) :
    langPatterns cp "rust" = (if tagMem cp "rust" then tagGet cp "rust" else []) := by
  unfold langPatterns
  have h1 : pyLower "rust" = "rust" := by decide
  have e1 : ("rust" == "rust") = true := by decide
  have e2 : jsFamily.contains "rust" = false := by decide
  have e2m : "rust" ∉ jsFamily := by decide
  have e3 : ("rust" == "mixed") = false := by decide
  cases h : tagMem cp "rust" <;> simp [h1, h, e1, e2, e2m, e3]

/-- The language branch evaluated at "javascript". -/
theorem langPatterns_javascript (cp : List (String × List String)) :
    langPatterns cp "javascript" =
      (if tagMem cp "javascript" then tagGet cp "javascript" else []) := by
  unfold langPatterns
  have h1 : pyLower "javascript" = "javascript" := by decide
  have e1 : ("javascript" == "rust") = false := by decide
  have e2 : jsFamily.contains "javascript" = true := by decide
  have e2m : "javascript" ∈ jsFamily := by decide
  have e3 : ("javascript" == "mixed") = false := by decide
  cases h : tagMem cp "javascript" <;> simp [h1, h, e1, e2, e2m, e3]

/-- The language branch evaluated at "mixed": only the "rust" and
"javascript" tags are added. -/
theorem langPatterns_mixed (cp : List (String × List String)) :
    langPatterns cp "mixed" =
      (if tagMem cp "rust" then tagGet cp "rust" else []) ++
      (if tagMem cp "javascript" then tagGet cp "javascript" else []) := by
  unfold langPatterns
  have h1 : pyLower "mixed" = "mixed" := by decide
  have e1 : ("mixed" == "rust") = false := by decide
  have e2 : jsFamily.contains "mixed" = false := by decide
  have e2m : "mixed" ∉ jsFamily := by decide
  have e3 : ("mixed" == "mixed") = true := by decide
  simp [h1, e1, e2, e2m, e3]

/-- The selection for a concrete non-empty project type. -/
theorem select_patterns_some (cp : List (String × List String)) (pt : String)
    (hpt : (pt == "") = false) :
    select_patterns cp (some pt) = pyDedup (commonPatterns cp ++ langPatterns cp pt) := by
  unfold select_patterns
  simp [hpt]

/-- C5 counterexample: for a category pattern set with a language tag other
than "rust"/"javascript" (here "go"), project type "mixed" does NOT include
that tag, although omitting the project type does — refuting the claim
that "mixed" takes every non-common tag. -/
theorem C5_counterexample_mixed_misses_other_tags :
    "g" ∉ select_patterns [("common", ["c"]), ("go", ["g"])] (some "mixed") ∧
    "g" ∈ tagGet [("common", ["c"]), ("go", ["g"])] "go" ∧
    "g" ∈ select_patterns [("common", ["c"]), ("go", ["g"])] none := by
  refine ⟨by decide, by decide, by decide⟩

/-- C5 (amended): "mixed" selects the "common" patterns together with the
"rust" and "javascript" tags (the only language tags the chain handles), so
the superset chain of the specification still holds: the mixed selection
contains the rust selection and the javascript selection, and each of those
contains the common patterns. -/
theorem C5_mixed_superset_chain (cp : List (String × List String)) :
    (∀ x, x ∈ select_patterns cp (some "rust") → x ∈ select_patterns cp (some "mixed")) ∧
    (∀ x, x ∈ select_patterns cp (some "javascript") → x ∈ select_patterns cp (some "mixed")) ∧
    (∀ x, x ∈ commonPatterns cp → x ∈ select_patterns cp (some "rust")) ∧
    (∀ x, x ∈ commonPatterns cp → x ∈ select_patterns cp (some "javascript")) := by
  have hr := select_patterns_some cp "rust" (by decide)
  have hj := select_patterns_some cp "javascript" (by decide)
  have hm := select_patterns_some cp "mixed" (by decide)
  refine ⟨?_, ?_, ?_, ?_⟩
  · intro x hx
    rw [hr, mem_pyDedup, langPatterns_rust] at hx
    rw [hm, mem_pyDedup, langPatterns_mixed]
    rcases List.mem_append.mp hx with h | h
    · exact List.mem_append.mpr (Or.inl h)
    · exact List.mem_append.mpr (Or.inr (List.mem_append.mpr (Or.inl h)))
  · intro x hx
    rw [hj, mem_pyDedup, langPatterns_javascript] at hx
    rw [hm, mem_pyDedup, langPatterns_mixed]
    rcases List.mem_append.mp hx with h | h
    · exact List.mem_append.mpr (Or.inl h)
    · exact List.mem_append.mpr (Or.inr (List.mem_append.mpr (Or.inr h)))
  · intro x hx
    rw [hr, mem_pyDedup]
    exact List.mem_append.mpr (Or.inl hx)
  · intro x hx
    rw [hj, mem_pyDedup]
    exact List.mem_append.mpr (Or.inl hx)

/-- C5 witness at a concrete three-tag pattern set. -/
theorem C5_witness :
    ("r" ∈ select_patterns [("common", ["c"]), ("rust", ["r"]), ("javascript", ["j"])]
        (some "rust") ∧
     "r" ∈ select_patterns [("common", ["c"]), ("rust", ["r"]), ("javascript", ["j"])]
        (some "mixed")) ∧
    ("c" ∈ commonPatterns [("common", ["c"]), ("rust", ["r"]), ("javascript", ["j"])] ∧
     "c" ∈ select_patterns [("common", ["c"]), ("rust", ["r"]), ("javascript", ["j"])]
        (some "javascript")) :=
  ⟨⟨by decide, (C5_mixed_superset_chain _).1 "r" (by decide)⟩,
   ⟨by decide, (C5_mixed_superset_chain _).2.2.2 "c" (by decide)⟩⟩

/-- C6: whenever no registry key equals or ends with the normalized
category, `get_evaluation_framework` returns a structured error object —
not an exception — with error code CATEGORY_NOT_FOUND, status "failed"
and the registry key list in the details. -/
theorem C6_category_not_found_error (reg : List (String × CatCfg))
    (ap : List (String × List (String × List String))) (ts : String → String)
    (cat : String) (pt : Option String)
    (h : find_category reg (normalize_category_name cat) = none) :
    get_evaluation_framework reg ap ts cat pt =
      .err (errorResponse_category_not_found cat (some (reg.map (fun kv => kv.1)))) ∧
    (errorResponse_category_not_found cat (some (reg.map (fun kv => kv.1)))).error_code =
      "CATEGORY_NOT_FOUND" ∧
    (errorResponse_category_not_found cat (some (reg.map (fun kv => kv.1)))).status =
      "failed" ∧
    (errorResponse_category_not_found cat (some (reg.map (fun kv => kv.1)))).details =
      some { requested_category := cat,
             available_categories := some (reg.map (fun kv => kv.1)) } := by
  refine ⟨?_, rfl, rfl, rfl⟩
  simp only [get_evaluation_framework, h]

/-- C6 witness at a concrete registry and unknown category. -/
theorem C6_witness :
    find_category [("near_integration", ⟨some 20, some [], some []⟩)]
      (normalize_category_name "nonexistent_category_xyz") = none ∧
    get_evaluation_framework [("near_integration", ⟨some 20, some [], some []⟩)] []
        (fun _ => "") "nonexistent_category_xyz" none =
      .err (errorResponse_category_not_found "nonexistent_category_xyz"
        (some ["near_integration"])) :=
  ⟨by decide,
   (C6_category_not_found_error [("near_integration", ⟨some 20, some [], some []⟩)] []
     (fun _ => "") "nonexistent_category_xyz" none (by decide)).1⟩

/-- C7: an invalid regex in the pattern list never raises and contributes
zero matches: the report equals the report of the valid patterns alone,
and no reported match carries an invalid pattern. -/
theorem C7_invalid_regex_skipped (content : String) (patterns : List String) :
    find_pattern_matches_in_file content patterns =
      find_pattern_matches_in_file content
        (patterns.filter (fun p => (reCompile p).isSome)) ∧
    ∀ p ∈ patterns, reCompile p = none →
      ∀ m ∈ find_pattern_matches_in_file content patterns, m.pattern ≠ p := by
  constructor
  · unfold find_pattern_matches_in_file
    induction patterns with
    | nil => rfl
    | cons q qs ih =>
      rw [List.filter_cons]
      cases hq : reCompile q with
      | none => simpa [hq] using ih
      | some r => simpa [hq] using ih
  · intro p hp hpc m hm heq
    unfold find_pattern_matches_in_file at hm
    rw [List.mem_flatten] at hm
    obtain ⟨block, hblock, hmb⟩ := hm
    rw [List.mem_map] at hblock
    obtain ⟨q, hq, rfl⟩ := hblock
    cases hqc : reCompile q with
    | none => rw [hqc] at hmb; simp at hmb
    | some r =>
      rw [hqc] at hmb
      have hqp : m.pattern = q := scanLines_pattern_eq q r m 0 _ hmb
      rw [heq] at hqp
      rw [hqp] at hpc
      rw [hqc] at hpc
      exact Option.noConfusion hpc

/-- C7 witness: the malformed pattern "(abc" alongside "near_sdk" on the
specification test content. -/
theorem C7_witness :
    (reCompile "(abc" = none ∧
     ("(abc" : String) ∈ (["(abc", "near_sdk"] : List String)) ∧
    (⟨"near_sdk", 2, "use near_sdk::X;", true⟩ : MatchResult) ∈
      find_pattern_matches_in_file "line1\nuse near_sdk::X;\nline3" ["(abc", "near_sdk"] ∧
    (⟨"near_sdk", 2, "use near_sdk::X;", true⟩ : MatchResult).pattern ≠ "(abc" :=
  ⟨⟨by decide, by decide⟩, by decide,
   (C7_invalid_regex_skipped "line1\nuse near_sdk::X;\nline3" ["(abc", "near_sdk"]).2
     "(abc" (by decide) (by decide) _ (by decide)⟩

/-- C9: the multi-file report maps only files with a non-empty match list,
and a supplied file absent from the report had no matches at all. -/
theorem C9_empty_matches_omitted (fc : List (String × String)) (patterns : List String) :
    (∀ kv ∈ find_pattern_matches_in_files fc patterns, kv.2 ≠ []) ∧
    (∀ f c, (f, c) ∈ fc →
      (∀ kv ∈ find_pattern_matches_in_files fc patterns, kv.1 ≠ f) →
      find_pattern_matches_in_file c patterns = []) := by
  constructor
  · intro kv hkv
    rw [find_pattern_matches_in_files, List.mem_filterMap] at hkv
    obtain ⟨a, _, ha⟩ := hkv
    by_cases he : (find_pattern_matches_in_file a.2 patterns).isEmpty
    · rw [if_pos he] at ha; exact Option.noConfusion ha
    · rw [if_neg he] at ha
      have hkv : kv = (a.1, find_pattern_matches_in_file a.2 patterns) :=
        (Option.some_inj.mp ha).symm
      subst hkv
      intro hnil
      exact he (List.isEmpty_iff.mpr hnil)
  · intro f c hfc habs
    by_cases he : (find_pattern_matches_in_file c patterns).isEmpty
    · exact List.isEmpty_iff.mp he
    · exfalso
      apply habs (f, find_pattern_matches_in_file c patterns)
      · rw [find_pattern_matches_in_files, List.mem_filterMap]
        exact ⟨(f, c), hfc, by rw [if_neg he]⟩
      · rfl

/-- C9 witness: one file with a match, one without; the second is absent
from the report and indeed has no matches. -/
theorem C9_witness :
    ((("a.rs", [(⟨"near_sdk", 1, "use near_sdk;", true⟩ : MatchResult)]) :
        String × List MatchResult) ∈
      find_pattern_matches_in_files [("a.rs", "use near_sdk;"), ("b.txt", "nothing")]
        ["near_sdk"] ∧
     ([(⟨"near_sdk", 1, "use near_sdk;", true⟩ : MatchResult)] :
        List MatchResult) ≠ []) ∧
    find_pattern_matches_in_file "nothing" ["near_sdk"] = [] :=
  ⟨⟨by decide,
    (C9_empty_matches_omitted [("a.rs", "use near_sdk;"), ("b.txt", "nothing")]
      ["near_sdk"]).1
      ("a.rs", [(⟨"near_sdk", 1, "use near_sdk;", true⟩ : MatchResult)]) (by decide)⟩,
   (C9_empty_matches_omitted [("a.rs", "use near_sdk;"), ("b.txt", "nothing")]
     ["near_sdk"]).2 "b.txt" "nothing" (by decide) (by decide)⟩

/-- The language selection only depends on the lower-cased project type. -/
theorem langPatterns_pyLower (cp : List (String × List String)) (s : String) :
    langPatterns cp (pyLower s) = langPatterns cp s := by
  unfold langPatterns
  rw [pyLower_idem]

/-- The whole selection agrees on a project type and its lower-casing. -/
theorem select_patterns_pyLower (cp : List (String × List String)) (s : String) :
    select_patterns cp (some (pyLower s)) = select_patterns cp (some s) := by
  by_cases hs : s = ""
  · subst hs; rfl
  · have h1 : (s == "") = false := beq_eq_false_iff_ne.mpr hs
    have h2 : (pyLower s == "") = false :=
      beq_eq_false_iff_ne.mpr (fun hh => hs ((pyLower_empty_iff s).mp hh))
    unfold select_patterns
    simp [h1, h2, langPatterns_pyLower]

/-- The prompt decoration agrees on a project type and its lower-casing. -/
theorem generate_prompt_pyLower (ts : String → String) (cat : String) (s : String) :
    generate_prompt ts cat (some (pyLower s)) = generate_prompt ts cat (some s) := by
  by_cases hs : s = ""
  · subst hs; rfl
  · have h1 : (s == "") = false := beq_eq_false_iff_ne.mpr hs
    have h2 : (pyLower s == "") = false :=
      beq_eq_false_iff_ne.mpr (fun hh => hs ((pyLower_empty_iff s).mp hh))
    unfold generate_prompt
    simp [h1, h2, pyLower_idem]

/-- C10: project-type handling is ASCII-case-insensitive: pattern
selection and prompt decoration give the same result for a project type
and for its lower-casing. -/
theorem C10_project_type_case_insensitive
    (ap : List (String × List (String × List String))) (cat : String)
    (ts : String → String) (s : String) :
    get_patterns_for_category ap cat (some s) =
      get_patterns_for_category ap cat (some (pyLower s)) ∧
    generate_prompt ts cat (some s) = generate_prompt ts cat (some (pyLower s)) := by
  refine ⟨?_, (generate_prompt_pyLower ts cat s).symm⟩
  simp only [get_patterns_for_category, select_patterns_pyLower]

end NearRubric
